import Mathlib

/-!
Verification of the mission-store layer of `faction-missions.py`.

The Python program keeps one document
`{"version": 1, "updated_at": ..., "missions": [...]}` persisted either in a
Google-Sheets spreadsheet (when both secrets are configured) or in a local JSON
file, with the last-loaded copy cached in `st.session_state["db"]`.

Modelling choices:
* Timestamps (`datetime.utcnow().isoformat()`) are abstracted as `Nat` clock
  readings; ISO-8601 strings of a monotone clock compare exactly like the
  underlying instants, so `≤` on `Nat` mirrors string comparison of the
  timestamps.
* Effects are made explicit: the fresh `uuid4` id and each `utcnow()` reading
  become parameters; the session state, the local file and the spreadsheet
  become fields of a `World` record that the operations transform.
* A remote (Sheets) read or write that raises is modelled by the flags
  `remoteReadOk` / `remoteWriteOk` being `false`; the `try/except` blocks of
  the Python become the corresponding branches.
-/

/-- The Mission record exactly as built by `new_mission` and stored in
`db["missions"]` (Python dict with the eleven keys of `HEADERS`). -/
structure Mission where
  id : String
  faction : String
  title : String
  reward : String
  location : String
  hook : String
  created_at : Nat
  updated_at : Nat
  status : String
  assigned_to : String
  notes : String
deriving DecidableEq

/-- The store document `{"version": ..., "updated_at": ..., "missions": [...]}`. -/
structure DB where
  version : Nat
  updated_at : Nat
  missions : List Mission
deriving DecidableEq

/-- `FACTIONS` from the source: the configured closed set of faction names. -/
def FACTIONS : List String :=
  ["Emerald Enclave 🌿", "Lord's Alliance 👑", "Harpers 🎼",
   "Force Grey 🥷", "Zhentarim 🐍", "Order of the Gauntlet 🛡"]

/-- `_empty_db()`: `{"version": 1, "updated_at": utcnow, "missions": []}`. -/
def empty_db (now : Nat) : DB :=
  { version := 1, updated_at := now, missions := [] }

/-- The world the store operations act on: backend configuration
(`_sheets_enabled()`), the document currently represented by the spreadsheet,
whether a remote read/write would raise, the parsed content of `DATA_FILE`
(`none` = file absent or unparsable, which `load_db` treats as no data), and
the session cache `st.session_state["db"]`. -/
structure World where
  sheetsEnabled : Bool
  remoteReadOk : Bool
  remoteWriteOk : Bool
  remoteDoc : DB
  localFile : Option DB
  cache : Option DB
deriving DecidableEq

/-- `load_db()`: prefer Google Sheets — on a successful remote read the result
is cached in the session AND written to `DATA_FILE`; if the remote read raises
(or Sheets is not enabled) fall back to the local file, defaulting to
`_empty_db()` when the file is absent or does not parse; cache and return.
Note: the cache is never consulted, only written. -/
def loadDb (w : World) (now : Nat) : World × DB :=
  if w.sheetsEnabled && w.remoteReadOk then
    ({ w with cache := some w.remoteDoc, localFile := some w.remoteDoc }, w.remoteDoc)
  else
    let data := w.localFile.getD (empty_db now)
    ({ w with cache := some data }, data)

/-- `save_db(data)`: stamp `data["updated_at"] = utcnow`; if Sheets is enabled
try the remote write (a raise is caught and reported as a non-fatal message,
leaving the spreadsheet as it was); always write the stamped document to
`DATA_FILE` and refresh the session cache. Returns the stamped document (the
Python mutates `data` in place). -/
def saveDb (w : World) (data : DB) (now : Nat) : World × DB :=
  let d := { data with updated_at := now }
  let w1 := if w.sheetsEnabled && w.remoteWriteOk then { w with remoteDoc := d } else w
  ({ w1 with localFile := some d, cache := some d }, d)

/-- Python's `str.strip()`: drop leading and trailing whitespace. (Defined by
structural recursion over the character list so that it evaluates inside the
kernel; `String.trim` is extensionally the same but defined by well-founded
recursion.) -/
def pyStrip (s : String) : String :=
  ⟨((s.data.dropWhile Char.isWhitespace).reverse.dropWhile Char.isWhitespace).reverse⟩

/-- `new_mission(faction, title, reward, location, hook)`: builds the record
with a fresh uuid (the `id` parameter), both timestamps equal to the single
`utcnow()` reading, status `"Available"`, and trimmed text fields. -/
def new_mission (faction title reward location hook : String)
    (id : String) (now : Nat) : Mission :=
  { id := id
    faction := faction
    title := pyStrip title
    reward := pyStrip reward
    location := pyStrip location
    hook := pyStrip hook
    created_at := now
    updated_at := now
    status := "Available"
    assigned_to := ""
    notes := "" }

/-- The `**fields` keyword arguments of `update_mission`: an optional new
value per mutable key; `none` models a field passed as Python `None`, which
the loop `if v is not None: m[k] = v` skips. (`updated_at` is excluded since
the function overwrites it afterwards in any case.) -/
structure FieldPatch where
  id : Option String
  faction : Option String
  title : Option String
  reward : Option String
  location : Option String
  hook : Option String
  created_at : Option Nat
  status : Option String
  assigned_to : Option String
  notes : Option String
deriving DecidableEq

/-- The empty patch: every keyword argument `None`. -/
def FieldPatch.empty : FieldPatch :=
  { id := none, faction := none, title := none, reward := none,
    location := none, hook := none, created_at := none, status := none,
    assigned_to := none, notes := none }

/-- `for k, v in fields.items(): if v is not None: m[k] = v` — overwrite
exactly the keys supplied with a non-`None` value. -/
def updFields (p : FieldPatch) (m : Mission) : Mission :=
  { id := p.id.getD m.id
    faction := p.faction.getD m.faction
    title := p.title.getD m.title
    reward := p.reward.getD m.reward
    location := p.location.getD m.location
    hook := p.hook.getD m.hook
    created_at := p.created_at.getD m.created_at
    updated_at := m.updated_at
    status := p.status.getD m.status
    assigned_to := p.assigned_to.getD m.assigned_to
    notes := p.notes.getD m.notes }

/-- The `for m in db["missions"]` loop of `update_mission`: patch the FIRST
mission whose id matches and stamp its `updated_at`; `none` when no id
matches (the loop falls through to `return False`). -/
def updateFirst (ms : List Mission) (mid : String) (p : FieldPatch) (now : Nat) :
    Option (List Mission) :=
  match ms with
  | [] => none
  | m :: rest =>
    if m.id = mid then
      some ({ updFields p m with updated_at := now } :: rest)
    else
      match updateFirst rest mid p now with
      | some rest' => some (m :: rest')
      | none => none

/-- `update_mission(db, mission_id, **fields)`: patch the first matching
mission (fields `None` ignored), stamp its `updated_at` with the loop-time
clock reading `nu`, `save_db(db)` (stamping the document with the save-time
reading `ns`) and return `True`; return `False` touching nothing when no
mission has the id. -/
def updateMission (w : World) (db : DB) (mid : String) (p : FieldPatch)
    (nu ns : Nat) : World × DB × Bool :=
  match updateFirst db.missions mid p nu with
  | some ms =>
    let r := saveDb w { db with missions := ms } ns
    (r.1, r.2, true)
  | none => (w, db, false)

/-- `delete_mission(db, mission_id)`: keep the missions whose id differs,
and call `save_db` exactly when the length changed. -/
def deleteMission (w : World) (db : DB) (mid : String) (ns : Nat) :
    World × DB × Bool :=
  let remaining := db.missions.filter (fun m => m.id != mid)
  if remaining.length = db.missions.length then
    (w, db, false)
  else
    let r := saveDb w { db with missions := remaining } ns
    (r.1, r.2, true)

/-- The `Add Mission` branch of `dm_panel`: the button is rendered with
`disabled=not title.strip()`, so the handler body
(`m = new_mission(...); db["missions"].append(m); save_db(db)`) runs only for
a title that trims to a nonempty string; no other check exists — in
particular the faction string is never validated. The returned `Bool` records
whether a mission was added. -/
def dm_addMission (w : World) (db : DB)
    (faction title reward location hook : String)
    (id : String) (nu ns : Nat) : World × DB × Bool :=
  if pyStrip title = "" then
    (w, db, false)
  else
    let m := new_mission faction title reward location hook id nu
    let r := saveDb w { db with missions := db.missions ++ [m] } ns
    (r.1, r.2, true)

/-- JSON values, as produced by `json.dumps` / consumed by `json.loads`.
(String-level round tripping of Python's `json` module is abstracted to
identity on these values.) -/
inductive Json where
  | null : Json
  | bool : Bool → Json
  | num : Nat → Json
  | str : String → Json
  | arr : List Json → Json
  | obj : List (String × Json) → Json

/-- Serialization of one mission row (the dict built by `new_mission`). -/
def Mission.toJson (m : Mission) : Json :=
  .obj [("id", .str m.id), ("faction", .str m.faction), ("title", .str m.title),
        ("reward", .str m.reward), ("location", .str m.location),
        ("hook", .str m.hook), ("created_at", .num m.created_at),
        ("updated_at", .num m.updated_at), ("status", .str m.status),
        ("assigned_to", .str m.assigned_to), ("notes", .str m.notes)]

/-- Serialization of the whole document: `json.dumps(db)` in the export
button of `dm_panel`. -/
def DB.toJson (db : DB) : Json :=
  .obj [("version", .num db.version), ("updated_at", .num db.updated_at),
        ("missions", .arr (db.missions.map Mission.toJson))]

/-- Key lookup in a JSON object (Python dict access / membership). -/
def jsonLookup (fields : List (String × Json)) (k : String) : Option Json :=
  match fields with
  | [] => none
  | (k', v) :: rest => if k' = k then some v else jsonLookup rest k

/-- The acceptance test of the restore branch of `dm_panel`, verbatim:
`isinstance(data, dict) and "missions" in data`. Nothing checks that the
value under `"missions"` is a list. -/
def importCheck (j : Json) : Bool :=
  match j with
  | .obj fields => (jsonLookup fields "missions").isSome
  | _ => false

/-- Extract a JSON string. -/
def asStr (j : Option Json) : Option String :=
  match j with
  | some (.str s) => some s
  | _ => none

/-- Extract a JSON number. -/
def asNum (j : Option Json) : Option Nat :=
  match j with
  | some (.num n) => some n
  | _ => none

/-- Typed decoding of one mission row of a serialized document. -/
def parseMission (j : Json) : Option Mission :=
  match j with
  | .obj fs => do
    let i ← asStr (jsonLookup fs "id")
    let fa ← asStr (jsonLookup fs "faction")
    let ti ← asStr (jsonLookup fs "title")
    let re ← asStr (jsonLookup fs "reward")
    let lo ← asStr (jsonLookup fs "location")
    let ho ← asStr (jsonLookup fs "hook")
    let ca ← asNum (jsonLookup fs "created_at")
    let ua ← asNum (jsonLookup fs "updated_at")
    let stt ← asStr (jsonLookup fs "status")
    let asg ← asStr (jsonLookup fs "assigned_to")
    let nts ← asStr (jsonLookup fs "notes")
    pure { id := i, faction := fa, title := ti, reward := re, location := lo,
           hook := ho, created_at := ca, updated_at := ua, status := stt,
           assigned_to := asg, notes := nts }
  | _ => none

/-- Decode a list of mission rows; fails when any row fails. -/
def parseMissions (js : List Json) : Option (List Mission) :=
  match js with
  | [] => some []
  | j :: rest =>
    match parseMission j, parseMissions rest with
    | some m, some ms => some (m :: ms)
    | _, _ => none

/-- Typed decoding of an uploaded payload into the store document shape the
rest of the program relies on (`db["missions"]` a list of well-formed rows,
`version` and `updated_at` present). The Python keeps the raw `json.loads`
dict; this decoder makes explicit which payloads actually have the document
shape. -/
def parseDB (j : Json) : Option DB :=
  match j with
  | .obj fs => do
    let v ← asNum (jsonLookup fs "version")
    let u ← asNum (jsonLookup fs "updated_at")
    let msJ ← match jsonLookup fs "missions" with
              | some (.arr xs) => some xs
              | _ => none
    let ms ← parseMissions msJ
    pure { version := v, updated_at := u, missions := ms }
  | _ => none

/-- The restore branch of `dm_panel` on an accepted, well-shaped upload
`data`: `save_db(data)` — the imported document replaces the store wholesale
(remote when configured and reachable, local file, and session cache). -/
def dm_restore (w : World) (data : DB) (ns : Nat) : World :=
  (saveDb w data ns).1

/-! Helper lemmas. -/

theorem updateFirst_none_of_notMem (ms : List Mission) (mid : String)
    (p : FieldPatch) (now : Nat) (h : mid ∉ ms.map Mission.id) :
    updateFirst ms mid p now = none := by
  induction ms with
  | nil => rfl
  | cons m rest ih =>
    simp only [List.map_cons, List.mem_cons, not_or] at h
    simp only [updateFirst, if_neg (fun he : m.id = mid => h.1 he.symm), ih h.2]

theorem map_ite_eq_self (ms : List Mission) (mid : String) (f : Mission → Mission)
    (h : mid ∉ ms.map Mission.id) :
    ms.map (fun m => if m.id = mid then f m else m) = ms := by
  induction ms with
  | nil => rfl
  | cons m rest ih =>
    simp only [List.map_cons, List.mem_cons, not_or] at h
    simp only [List.map_cons, if_neg (fun he : m.id = mid => h.1 he.symm), ih h.2]

theorem updateFirst_eq_map (ms : List Mission) (mid : String) (p : FieldPatch)
    (now : Nat) (hnd : (ms.map Mission.id).Nodup) (hmem : mid ∈ ms.map Mission.id) :
    updateFirst ms mid p now =
      some (ms.map (fun m =>
        if m.id = mid then { updFields p m with updated_at := now } else m)) := by
  induction ms with
  | nil => cases hmem
  | cons m rest ih =>
    rw [List.map_cons, List.nodup_cons] at hnd
    by_cases he : m.id = mid
    · have hrest : mid ∉ rest.map Mission.id := he ▸ hnd.1
      simp only [updateFirst, if_pos he, List.map_cons, if_pos he,
        map_ite_eq_self rest mid _ hrest]
    · have hmem' : mid ∈ rest.map Mission.id := by
        rcases List.mem_cons.mp (List.map_cons Mission.id m rest ▸ hmem) with h1 | h2
        · exact absurd h1.symm he
        · exact h2
      simp only [updateFirst, if_neg he, ih hnd.2 hmem', List.map_cons, if_neg he]

theorem filter_ne_eq_self (ms : List Mission) (mid : String)
    (h : mid ∉ ms.map Mission.id) :
    ms.filter (fun m => m.id != mid) = ms := by
  refine List.filter_eq_self.mpr (fun a ha => ?_)
  refine bne_iff_ne.mpr (fun he => h ?_)
  exact he ▸ List.mem_map_of_mem Mission.id ha

theorem filter_ne_length (ms : List Mission) (mid : String)
    (hnd : (ms.map Mission.id).Nodup) (hmem : mid ∈ ms.map Mission.id) :
    (ms.filter (fun m => m.id != mid)).length + 1 = ms.length := by
  induction ms with
  | nil => cases hmem
  | cons m rest ih =>
    rw [List.map_cons, List.nodup_cons] at hnd
    by_cases he : m.id = mid
    · have hrest : mid ∉ rest.map Mission.id := he ▸ hnd.1
      have hpm : (m.id != mid) = false := by simp [he]
      simp only [List.filter_cons, hpm, if_neg Bool.false_ne_true,
        filter_ne_eq_self rest mid hrest, List.length_cons]
    · have hmem' : mid ∈ rest.map Mission.id := by
        rcases List.mem_cons.mp (List.map_cons Mission.id m rest ▸ hmem) with h1 | h2
        · exact absurd h1.symm he
        · exact h2
      have hpm : (m.id != mid) = true := bne_iff_ne.mpr he
      simp [List.filter_cons, hpm, ih hnd.2 hmem']

theorem updateFirst_updated_le (ms ms' : List Mission) (mid : String)
    (p : FieldPatch) (nu n : Nat)
    (hall : ∀ m ∈ ms, m.updated_at ≤ n) (hnu : nu ≤ n)
    (h : updateFirst ms mid p nu = some ms') :
    ∀ x ∈ ms', x.updated_at ≤ n := by
  induction ms generalizing ms' with
  | nil => simp [updateFirst] at h
  | cons m rest ih =>
    by_cases he : m.id = mid
    · simp only [updateFirst, if_pos he] at h
      injection h with h
      subst h
      intro x hx
      rcases List.mem_cons.mp hx with rfl | hx'
      · exact hnu
      · exact hall x (List.mem_cons_of_mem m hx')
    · simp only [updateFirst, if_neg he] at h
      cases hrec : updateFirst rest mid p nu with
      | none => rw [hrec] at h; cases h
      | some rest' =>
        rw [hrec] at h
        injection h with h
        subst h
        intro x hx
        rcases List.mem_cons.mp hx with rfl | hx'
        · exact hall x (List.mem_cons_self x rest)
        · exact ih rest' (fun y hy => hall y (List.mem_cons_of_mem m hy)) hrec x hx'

theorem parseMission_toJson (m : Mission) :
    parseMission (Mission.toJson m) = some m := rfl

theorem parseMissions_map_toJson (ms : List Mission) :
    parseMissions (ms.map Mission.toJson) = some ms := by
  induction ms with
  | nil => rfl
  | cons m rest ih =>
    simp only [List.map_cons, parseMissions, parseMission_toJson, ih]

theorem parseDB_toJson (db : DB) : parseDB (DB.toJson db) = some db := by
  show Option.bind (parseMissions (db.missions.map Mission.toJson))
      (fun ms =>
        some { version := db.version, updated_at := db.updated_at, missions := ms }) = some db
  rw [parseMissions_map_toJson]
  rfl

/-! Concrete fixtures used by witnesses and counterexamples. -/

def m0 : Mission :=
  { id := "m0", faction := "Harpers 🎼", title := "Recover the Moonshard",
    reward := "300 gp", location := "City of the Dead", hook := "Shard sighted",
    created_at := 3, updated_at := 3, status := "Available",
    assigned_to := "", notes := "" }

def db0 : DB := { version := 1, updated_at := 3, missions := [m0] }

def w0 : World :=
  { sheetsEnabled := false, remoteReadOk := false, remoteWriteOk := false,
    remoteDoc := empty_db 0, localFile := some db0, cache := some db0 }

def dbCached : DB := { version := 1, updated_at := 1, missions := [] }

def dbOnDisk : DB := { version := 1, updated_at := 2, missions := [] }

def wC1 : World :=
  { sheetsEnabled := false, remoteReadOk := false, remoteWriteOk := false,
    remoteDoc := empty_db 0, localFile := some dbOnDisk, cache := some dbCached }

def wC2 : World :=
  { sheetsEnabled := false, remoteReadOk := false, remoteWriteOk := false,
    remoteDoc := empty_db 0, localFile := none, cache := none }

def dbEmpty : DB := { version := 1, updated_at := 0, missions := [] }

def patchC : FieldPatch := { FieldPatch.empty with status := some "Completed" }

def wR : World :=
  { sheetsEnabled := true, remoteReadOk := false, remoteWriteOk := false,
    remoteDoc := empty_db 0, localFile := some db0, cache := none }

def wR10 : World :=
  { sheetsEnabled := true, remoteReadOk := true, remoteWriteOk := true,
    remoteDoc := dbCached, localFile := some db0, cache := none }

/-! Claim C1. -/

/-- Claim C1 counterexample: with a document already in the session cache and
a different document on disk (Sheets not configured), `load_db` returns the
on-disk document, not the cached one — the claim that a populated cache is
returned without a backend read is false. -/
theorem loadDb_cache_counterexample :
    wC1.cache = some dbCached ∧ (loadDb wC1 7).2 = dbOnDisk ∧ dbCached ≠ dbOnDisk := by
  refine ⟨rfl, rfl, by decide⟩

/-- Claim C1 (amended): `load_db` never consults the session cache: every call
performs a full backend read — the remote document when Sheets is enabled and
readable, otherwise the local file (or an empty document when absent or
unparsable) — and overwrites the cache with that result. -/
theorem loadDb_always_reads_backend (w : World) (now : Nat) :
    (loadDb w now).2 =
      (if w.sheetsEnabled && w.remoteReadOk then w.remoteDoc
       else w.localFile.getD (empty_db now)) ∧
    (loadDb w now).1.cache = some ((loadDb w now).2) := by
  by_cases h : (w.sheetsEnabled && w.remoteReadOk) = true <;> simp [loadDb, h]

/-! Claim C2. -/

/-- Claim C2 counterexample: creating a mission whose faction lies outside
`FACTIONS` raises no `ValidationError` (none exists in the program): the
record is appended, the call reports success, and the document is persisted
to the local file. -/
theorem create_no_faction_validation_counterexample :
    ("Nobody" ∉ FACTIONS) ∧
    (dm_addMission wC2 dbEmpty "Nobody" "Quest" "" "" "" "id1" 5 6).2.2 = true ∧
    (dm_addMission wC2 dbEmpty "Nobody" "Quest" "" "" "" "id1" 5 6).2.1.missions =
      [new_mission "Nobody" "Quest" "" "" "" "id1" 5] ∧
    (dm_addMission wC2 dbEmpty "Nobody" "Quest" "" "" "" "id1" 5 6).1.localFile =
      some ((dm_addMission wC2 dbEmpty "Nobody" "Quest" "" "" "" "id1" 5 6).2.1) := by
  refine ⟨by decide, rfl, rfl, rfl⟩

/-- Claim C2 (amended): mission creation never raises a `ValidationError` —
no such error exists in the code. A title that trims to empty only disables
the Add-Mission button, so nothing is appended, persisted, or raised; for any
title that trims to a nonempty string the handler unconditionally appends and
persists the new record, whatever the faction string is (the faction is never
validated; the UI merely restricts it to a select box over `FACTIONS`). -/
theorem dm_addMission_no_validation (w : World) (db : DB)
    (f t r l hk id : String) (nu ns : Nat) :
    (pyStrip t = "" → dm_addMission w db f t r l hk id nu ns = (w, db, false)) ∧
    (pyStrip t ≠ "" →
      (dm_addMission w db f t r l hk id nu ns).2.1.missions =
        db.missions ++ [new_mission f t r l hk id nu] ∧
      (dm_addMission w db f t r l hk id nu ns).2.2 = true) := by
  constructor
  · intro h; simp [dm_addMission, h]
  · intro h; simp [dm_addMission, h, saveDb]

/-- Claim C2 witness: the amended behavior at concrete inputs — a whitespace
title leads to a silent no-op, a real title with an invalid faction leads to
a successful append. -/
theorem dm_addMission_no_validation_witness :
    dm_addMission wC2 dbEmpty "X" " " "" "" "" "i" 1 2 = (wC2, dbEmpty, false) ∧
    (dm_addMission wC2 dbEmpty "X" "Q" "" "" "" "i" 1 2).2.2 = true :=
  ⟨(dm_addMission_no_validation wC2 dbEmpty "X" " " "" "" "" "i" 1 2).1 (by decide),
   ((dm_addMission_no_validation wC2 dbEmpty "X" "Q" "" "" "" "i" 1 2).2 (by decide)).2⟩

/-! Claim C3. -/

/-- Claim C3: for every field set and a generated id not already present, the
mission built by `new_mission` carries status `"Available"`, equal creation
and update timestamps (one `utcnow()` reading), and an id distinct from every
existing mission's id. -/
theorem new_mission_fresh_available (db : DB) (f t r l hk id : String) (now : Nat)
    (hfresh : id ∉ db.missions.map Mission.id) :
    (new_mission f t r l hk id now).status = "Available" ∧
    (new_mission f t r l hk id now).created_at =
      (new_mission f t r l hk id now).updated_at ∧
    ∀ m ∈ db.missions, (new_mission f t r l hk id now).id ≠ m.id := by
  refine ⟨rfl, rfl, fun m hm he => hfresh ?_⟩
  exact List.mem_map.mpr ⟨m, hm, he.symm⟩

/-- Claim C3 witness: instantiated on a store holding one mission. -/
theorem new_mission_fresh_available_witness :
    ("newid" ∉ db0.missions.map Mission.id) ∧
    (new_mission "Harpers 🎼" "T" "" "" "" "newid" 9).status = "Available" ∧
    (new_mission "Harpers 🎼" "T" "" "" "" "newid" 9).created_at =
      (new_mission "Harpers 🎼" "T" "" "" "" "newid" 9).updated_at ∧
    (new_mission "Harpers 🎼" "T" "" "" "" "newid" 9).id ≠ m0.id :=
  ⟨by decide,
   (new_mission_fresh_available db0 "Harpers 🎼" "T" "" "" "" "newid" 9 (by decide)).1,
   (new_mission_fresh_available db0 "Harpers 🎼" "T" "" "" "" "newid" 9 (by decide)).2.1,
   (new_mission_fresh_available db0 "Harpers 🎼" "T" "" "" "" "newid" 9 (by decide)).2.2
     m0 (List.mem_cons_self m0 [])⟩

/-! Claim C4. -/

/-- Claim C4: on a document with unique mission ids (the data-model
invariant), `update_mission` on a present id overwrites in the matching
mission exactly the keyword fields supplied with a non-`None` value plus its
`updated_at`, leaves every other field of that mission and every other
mission unchanged, stamps the document and persists it (local file and
cache), and returns `True`; on an absent id it returns `False` and leaves the
world and the document completely unchanged — nothing is persisted. -/
theorem updateMission_spec (w : World) (db : DB) (mid : String) (p : FieldPatch)
    (nu ns : Nat) (hnd : (db.missions.map Mission.id).Nodup) :
    (mid ∉ db.missions.map Mission.id →
       updateMission w db mid p nu ns = (w, db, false)) ∧
    (mid ∈ db.missions.map Mission.id →
       (updateMission w db mid p nu ns).2.2 = true ∧
       (updateMission w db mid p nu ns).2.1.missions =
         db.missions.map (fun m =>
           if m.id = mid then { updFields p m with updated_at := nu } else m) ∧
       (updateMission w db mid p nu ns).2.1.version = db.version ∧
       (updateMission w db mid p nu ns).2.1.updated_at = ns ∧
       (updateMission w db mid p nu ns).1.localFile =
         some ((updateMission w db mid p nu ns).2.1) ∧
       (updateMission w db mid p nu ns).1.cache =
         some ((updateMission w db mid p nu ns).2.1)) := by
  constructor
  · intro h
    simp [updateMission, updateFirst_none_of_notMem db.missions mid p nu h]
  · intro h
    simp [updateMission, updateFirst_eq_map db.missions mid p nu hnd h, saveDb]

/-- Claim C4 witness: on the one-mission store, updating an unknown id is a
silent no-op and updating `"m0"` with `{status: "Completed"}` rewrites
exactly that mission's status and `updated_at`. -/
theorem updateMission_spec_witness :
    updateMission w0 db0 "nope" FieldPatch.empty 4 5 = (w0, db0, false) ∧
    (updateMission w0 db0 "m0" patchC 4 5).2.2 = true ∧
    (updateMission w0 db0 "m0" patchC 4 5).2.1.missions =
      [{ m0 with status := "Completed", updated_at := 4 }] :=
  ⟨(updateMission_spec w0 db0 "nope" FieldPatch.empty 4 5 (by decide)).1 (by decide),
   ((updateMission_spec w0 db0 "m0" patchC 4 5 (by decide)).2 (by decide)).1,
   ((updateMission_spec w0 db0 "m0" patchC 4 5 (by decide)).2 (by decide)).2.1⟩

/-! Claim C5. -/

/-- Claim C5: on a document with unique mission ids, `delete_mission` on a
present id removes exactly one record (the one with that id), persists the
document (local file and cache) and returns `True`; on an absent id it
returns `False` and leaves the world and the document unchanged — `save_db`
runs if and only if a removal occurred. -/
theorem deleteMission_spec (w : World) (db : DB) (mid : String) (ns : Nat)
    (hnd : (db.missions.map Mission.id).Nodup) :
    (mid ∉ db.missions.map Mission.id →
       deleteMission w db mid ns = (w, db, false)) ∧
    (mid ∈ db.missions.map Mission.id →
       (deleteMission w db mid ns).2.2 = true ∧
       (deleteMission w db mid ns).2.1.missions =
         db.missions.filter (fun m => m.id != mid) ∧
       (deleteMission w db mid ns).2.1.missions.length + 1 = db.missions.length ∧
       (deleteMission w db mid ns).1.localFile =
         some ((deleteMission w db mid ns).2.1) ∧
       (deleteMission w db mid ns).1.cache =
         some ((deleteMission w db mid ns).2.1)) := by
  constructor
  · intro h
    simp [deleteMission, filter_ne_eq_self db.missions mid h]
  · intro h
    have hlen := filter_ne_length db.missions mid hnd h
    have hne : ¬ ((db.missions.filter (fun m => m.id != mid)).length =
        db.missions.length) := by omega
    refine ⟨?_, ?_, ?_, ?_, ?_⟩ <;> simp [deleteMission, hne, saveDb, hlen]

/-- Claim C5 witness: deleting `"nonexistent-id"` is a silent no-op; deleting
`"m0"` removes exactly one record and reports success. -/
theorem deleteMission_spec_witness :
    deleteMission w0 db0 "nonexistent-id" 8 = (w0, db0, false) ∧
    (deleteMission w0 db0 "m0" 8).2.2 = true ∧
    (deleteMission w0 db0 "m0" 8).2.1.missions.length + 1 = db0.missions.length :=
  ⟨(deleteMission_spec w0 db0 "nonexistent-id" 8 (by decide)).1 (by decide),
   ((deleteMission_spec w0 db0 "m0" 8 (by decide)).2 (by decide)).1,
   ((deleteMission_spec w0 db0 "m0" 8 (by decide)).2 (by decide)).2.2.1⟩

/-! Claim C6. -/

/-- Claim C6: when the remote backend raises on read and on write, every
operation still completes through the local backend: `load_db` returns the
local document (or an empty one) and caches it; create (`dm_panel` add),
update, delete and restore still persist the attempted document to the local
file and refresh the cache, leaving the spreadsheet untouched. All
operations are total — no exception reaches the collaborator; the caught
failure is reported only as a non-fatal message (`st.warning` on load,
`st.error` on save). -/
theorem remote_failure_fallback (w : World) (db : DB)
    (f t r l hk id mid : String) (p : FieldPatch) (nu ns now : Nat)
    (hs : w.sheetsEnabled = true) (hr : w.remoteReadOk = false)
    (hw : w.remoteWriteOk = false) (ht : pyStrip t ≠ "") :
    loadDb w now =
      ({ w with cache := some (w.localFile.getD (empty_db now)) },
        w.localFile.getD (empty_db now)) ∧
    saveDb w db ns =
      ({ w with localFile := some { db with updated_at := ns },
                cache := some { db with updated_at := ns } },
        { db with updated_at := ns }) ∧
    dm_addMission w db f t r l hk id nu ns =
      ({ w with
          localFile := some { db with
            missions := db.missions ++ [new_mission f t r l hk id nu],
            updated_at := ns },
          cache := some { db with
            missions := db.missions ++ [new_mission f t r l hk id nu],
            updated_at := ns } },
        { db with
          missions := db.missions ++ [new_mission f t r l hk id nu],
          updated_at := ns },
        true) ∧
    ((updateMission w db mid p nu ns).2.2 = true →
       (updateMission w db mid p nu ns).1.localFile =
         some ((updateMission w db mid p nu ns).2.1) ∧
       (updateMission w db mid p nu ns).1.cache =
         some ((updateMission w db mid p nu ns).2.1) ∧
       (updateMission w db mid p nu ns).1.remoteDoc = w.remoteDoc) ∧
    ((deleteMission w db mid ns).2.2 = true →
       (deleteMission w db mid ns).1.localFile =
         some ((deleteMission w db mid ns).2.1) ∧
       (deleteMission w db mid ns).1.cache =
         some ((deleteMission w db mid ns).2.1) ∧
       (deleteMission w db mid ns).1.remoteDoc = w.remoteDoc) ∧
    dm_restore w db ns =
      { w with localFile := some { db with updated_at := ns },
               cache := some { db with updated_at := ns } } := by
  refine ⟨?_, ?_, ?_, ?_, ?_, ?_⟩
  · simp [loadDb, hr]
  · simp [saveDb, hw]
  · simp [dm_addMission, ht, saveDb, hw]
  · intro hTrue
    cases hu : updateFirst db.missions mid p nu with
    | none => simp [updateMission, hu] at hTrue
    | some ms => simp [updateMission, hu, saveDb, hw]
  · intro hTrue
    by_cases hlen : (db.missions.filter (fun m => m.id != mid)).length =
        db.missions.length
    · simp [deleteMission, hlen] at hTrue
    · simp [deleteMission, hlen, saveDb, hw]
  · simp [dm_restore, saveDb, hw]

/-- Claim C6 witness: with Sheets configured but raising, loading returns the
on-disk document, creating succeeds, updating leaves the spreadsheet alone,
and deleting still persists locally. -/
theorem remote_failure_fallback_witness :
    (loadDb wR 9).2 = db0 ∧
    (dm_addMission wR db0 "Harpers 🎼" "Q" "" "" "" "id9" 4 5).2.2 = true ∧
    (updateMission wR db0 "m0" patchC 4 5).1.remoteDoc = wR.remoteDoc ∧
    (deleteMission wR db0 "m0" 5).1.localFile =
      some ((deleteMission wR db0 "m0" 5).2.1) := by
  have h := remote_failure_fallback wR db0 "Harpers 🎼" "Q" "" "" "" "id9" "m0"
    patchC 4 5 9 rfl rfl rfl (by decide)
  exact ⟨congrArg Prod.snd h.1,
    congrArg (fun x : World × DB × Bool => x.2.2) h.2.2.1,
    (h.2.2.2.1 (by decide)).2.2, (h.2.2.2.2.1 (by decide)).1⟩

/-! Claim C7. -/

/-- Claim C7: exporting (`json.dumps(db)`) and importing the result
round-trips: the serialized document passes the restore acceptance check,
decodes to the same document, and restoring it stores and caches a document
identical to the original in version and in its full ordered mission list,
differing at most in the document-level `updated_at`, which is stamped with
the restore time by `save_db`. -/
theorem export_import_roundtrip (w : World) (doc : DB) (ns : Nat) :
    importCheck (DB.toJson doc) = true ∧
    parseDB (DB.toJson doc) = some doc ∧
    (dm_restore w doc ns).cache = some { doc with updated_at := ns } ∧
    (dm_restore w doc ns).localFile = some { doc with updated_at := ns } := by
  refine ⟨rfl, parseDB_toJson doc, ?_, ?_⟩ <;> simp [dm_restore, saveDb]

/-! Claim C8. -/

/-- The failing payload of claim C8: the parse of `'{"missions": 5}'` — a
JSON object that has a `"missions"` key but no missions list. -/
def jBad : Json := Json.obj [("missions", Json.num 5)]

/-- Claim C8 (code bug): the restore branch's acceptance test — literally
`isinstance(data, dict) and "missions" in data` — accepts `{"missions": 5}`
even though the payload does not decode to a document shape containing a
missions list; the code then calls `save_db` on the raw payload, persisting
it and replacing the cache. The code's own rejection message ("Invalid file:
expected a JSON object with a 'missions' list") and the spec both require
this input to be rejected with no store mutation. -/
theorem importCheck_accepts_missions_nonlist :
    importCheck jBad = true ∧ parseDB jBad = none := ⟨rfl, rfl⟩

/-! Claim C9. -/

def mFuture : Mission :=
  { id := "f1", faction := "Zhentarim 🐍", title := "From the future",
    reward := "", location := "", hook := "", created_at := 100,
    updated_at := 100, status := "Available", assigned_to := "", notes := "" }

def dbFuture : DB := { version := 1, updated_at := 100, missions := [mFuture] }

/-- Claim C9 counterexample: restoring a document whose mission carries
`updated_at = 100` at save time `50` persists a document whose document-level
`updated_at` (50, freshly stamped by `save_db`) is strictly below its
mission's `updated_at` (100): after this persisted write the invariant
`document.updated_at ≥ max mission updated_at` is false. -/
theorem restore_breaks_timestamp_invariant :
    (dm_restore w0 dbFuture 50).localFile =
      some { dbFuture with updated_at := 50 } ∧
    ({ dbFuture with updated_at := 50 }).updated_at < mFuture.updated_at ∧
    mFuture ∈ ({ dbFuture with updated_at := 50 }).missions := by
  refine ⟨rfl, by decide, List.mem_cons_self mFuture []⟩

/-- Claim C9 (amended): every persisted write stamps the document-level
`updated_at` with the save-time clock reading; for create, update and delete
— whose mission timestamps all come from clock readings no later than the
save — the persisted document satisfies `updated_at ≥` every contained
mission's `updated_at`; restore, however, persists imported mission
timestamps unchanged, so an imported mission stamped later than the restore
time violates the inequality. -/
theorem mutation_timestamp_invariant (w : World) (db : DB)
    (f t r l hk id mid : String) (p : FieldPatch) (nu ns : Nat)
    (hall : ∀ m ∈ db.missions, m.updated_at ≤ ns) (hnu : nu ≤ ns)
    (ht : pyStrip t ≠ "") :
    ((dm_addMission w db f t r l hk id nu ns).2.1.updated_at = ns ∧
      ∀ m ∈ (dm_addMission w db f t r l hk id nu ns).2.1.missions,
        m.updated_at ≤ ns) ∧
    ((updateMission w db mid p nu ns).2.2 = true →
      (updateMission w db mid p nu ns).2.1.updated_at = ns ∧
      ∀ m ∈ (updateMission w db mid p nu ns).2.1.missions,
        m.updated_at ≤ ns) ∧
    ((deleteMission w db mid ns).2.2 = true →
      (deleteMission w db mid ns).2.1.updated_at = ns ∧
      ∀ m ∈ (deleteMission w db mid ns).2.1.missions,
        m.updated_at ≤ ns) := by
  refine ⟨⟨?_, ?_⟩, ?_, ?_⟩
  · simp [dm_addMission, ht, saveDb]
  · intro m hm
    simp [dm_addMission, ht, saveDb] at hm
    rcases hm with hm | rfl
    · exact hall m hm
    · exact hnu
  · intro hTrue
    cases hu : updateFirst db.missions mid p nu with
    | none => simp [updateMission, hu] at hTrue
    | some ms =>
      constructor
      · simp [updateMission, hu, saveDb]
      · intro m hm
        simp only [updateMission, hu, saveDb] at hm
        exact updateFirst_updated_le db.missions ms mid p nu ns hall hnu hu m hm
  · intro hTrue
    by_cases hlen : (db.missions.filter (fun m => m.id != mid)).length =
        db.missions.length
    · simp [deleteMission, hlen] at hTrue
    · constructor
      · simp [deleteMission, hlen, saveDb]
      · intro m hm
        simp only [deleteMission, hlen, if_false, saveDb] at hm
        exact hall m (List.mem_of_mem_filter hm)

/-- Claim C9 witness for the amended statement: on the one-mission store
(timestamps 3) with mutation reading 4 and save reading 10, create and update
both leave the stamped document above every mission timestamp. -/
theorem mutation_timestamp_invariant_witness :
    (dm_addMission w0 db0 "Harpers 🎼" "Q" "" "" "" "id2" 4 10).2.1.updated_at = 10 ∧
    (updateMission w0 db0 "m0" patchC 4 10).2.1.updated_at = 10 := by
  have h := mutation_timestamp_invariant w0 db0 "Harpers 🎼" "Q" "" "" "" "id2"
    "m0" patchC 4 10 (by decide) (by decide) (by decide)
  exact ⟨h.1.1, (h.2.1 (by decide)).1⟩

/-! Claim C10. -/

/-- Claim C10: when Sheets is enabled and the remote read succeeds, `load_db`
— a pure read from the collaborator's point of view — also overwrites the
local file with the document fetched from the remote service (besides caching
and returning it), replacing whatever was previously stored there. -/
theorem loadDb_overwrites_local_on_remote_success (w : World) (now : Nat)
    (hs : w.sheetsEnabled = true) (hr : w.remoteReadOk = true) :
    loadDb w now =
      ({ w with cache := some w.remoteDoc, localFile := some w.remoteDoc },
       w.remoteDoc) := by
  simp [loadDb, hs, hr]

/-- Claim C10 witness: a world with Sheets readable and a local file holding
a different document; after `load_db` the local file holds the remote
document. -/
theorem loadDb_overwrites_local_witness :
    (loadDb wR10 0).1.localFile = some wR10.remoteDoc ∧
    wR10.localFile = some db0 ∧ wR10.remoteDoc ≠ db0 := by
  have h := loadDb_overwrites_local_on_remote_success wR10 0 rfl rfl
  exact ⟨by rw [h], rfl, by decide⟩
